import Mathlib

/-!
Shallow embedding of `webserver.go` (package main): a small HTTP server with
three handlers (`GenericHandler`, `HomeHandler`, `ItemHandler`) and a cookie
setter (`SetMyCookie`).  Handlers are modelled as pure functions from a
request value (the fields of `*http.Request` the code reads) to a response
value (status, headers, accumulated body).  Library calls the code makes
(`http.Error`, `http.SetCookie`, `url.ParseQuery` via `request.ParseForm`,
`json.Marshal`, `fmt` verbs) are embedded by small executable functions that
mirror the Go standard library's documented behaviour on the types used here.
-/

/-- The fields of `*http.Request` that `webserver.go` reads: `request.Method`,
`request.RequestURI`, `request.URL.Path`, `request.URL.RawQuery` (the input of
`request.ParseForm` for the non-body methods), and the client cookies returned
by `request.Cookies()` as name/value pairs. -/
structure Request where
  method : String
  requestURI : String
  path : String
  rawQuery : String
  cookies : List (String × String)
deriving DecidableEq, Repr

/-- The observable response state an `http.ResponseWriter` accumulates here:
the status code (200 unless `WriteHeader` ran first via `http.Error`), the
`Content-type` header, the appended `Set-Cookie` headers as name/value pairs,
and the body bytes written so far. -/
structure Response where
  status : Nat
  contentType : String
  setCookies : List (String × String)
  body : String
deriving DecidableEq, Repr

/-- The fresh `http.ResponseWriter` state a handler starts from: default
status 200, no headers set, empty body. -/
def emptyResponse : Response :=
  { status := 200, contentType := "", setCookies := [], body := "" }

/-- `SetMyCookie` from `webserver.go`: builds the fixed cookie
`testcookiename=testcookievalue` and calls `http.SetCookie`, which appends a
`Set-Cookie` header for it; nothing else of the response is touched. -/
def SetMyCookie (response : Response) : Response :=
  { response with
    setCookies := response.setCookies ++ [("testcookiename", "testcookievalue")] }

/-- `http.Error` from `net/http`: sets `Content-Type` to
`text/plain; charset=utf-8`, writes the status code via `WriteHeader`, and
writes the message followed by a newline (`fmt.Fprintln`).  Existing
`Set-Cookie` headers stay; earlier body bytes (none in this program) stay. -/
def httpError (response : Response) (msg : String) (code : Nat) : Response :=
  { response with
    contentType := "text/plain; charset=utf-8",
    status := code,
    body := response.body ++ msg ++ "\n" }

/-- Concatenation of a list of strings (`strings.Join` with no separator,
the accumulation `json.Marshal`'s encoder performs). -/
def strConcat : List String → String
  | [] => ""
  | s :: rest => s ++ strConcat rest

/-- Concatenation of a list of strings with a separator between consecutive
elements, as the `json` and `fmt` output is laid out. -/
def sepConcat (sep : String) : List String → String
  | [] => ""
  | [s] => s
  | s :: rest => s ++ sep ++ sepConcat sep rest

/-- A character matched by `\w` in Go's RE2 regexp syntax:
`[0-9A-Za-z_]` (ASCII only). -/
def isWordChar (c : Char) : Bool :=
  (decide ('0' ≤ c) && decide (c ≤ '9')) ||
  (decide ('A' ≤ c) && decide (c ≤ 'Z')) ||
  (decide ('a' ≤ c) && decide (c ≤ 'z')) ||
  (c == '_')

/-- Strips `pre` from the beginning of `l`, returning the rest, or `none`
when `l` does not begin with `pre`. -/
def stripBegin : List Char → List Char → Option (List Char)
  | [], cs => some cs
  | _ :: _, [] => none
  | p :: ps, c :: cs => if p = c then stripBegin ps cs else none

/-- `itemURL.FindStringSubmatch(path)` for the anchored pattern
`^/item/(\w+)$`: the whole path must be `/item/` followed by one or more
word characters; on a match the result is `[path, token]`, otherwise the
empty slice. -/
def itemMatchList (path : String) : List String :=
  match stripBegin "/item/".data path.data with
  | some rest =>
      if rest ≠ [] ∧ rest.all isWordChar then [path, String.mk rest] else []
  | none => []

/-- Go `encoding/json` escaping of one character inside a string literal
(default encoder, HTML escaping on): quote and backslash get a backslash,
newline/carriage-return/tab their short forms, other control characters a
`\u00XX` form, and the HTML-sensitive characters their `\u00XX` forms. -/
def jsonEscapeChar (c : Char) : String :=
  if c = '"' then "\\\""
  else if c = '\\' then "\\\\"
  else if c = '\n' then "\\n"
  else if c = '\r' then "\\r"
  else if c = '\t' then "\\t"
  else if c = '<' then "\\u003c"
  else if c = '>' then "\\u003e"
  else if c = '&' then "\\u0026"
  else if c < ' ' then
    "\\u00" ++ String.mk [(Nat.digitChar (c.toNat / 16)), (Nat.digitChar (c.toNat % 16))]
  else String.singleton c

/-- Go `encoding/json` rendering of a string value: escaped, in quotes. -/
def jsonQuote (s : String) : String :=
  "\"" ++ strConcat (s.data.map jsonEscapeChar) ++ "\""

/-- Insertion step for sorting key/value pairs by key, the order
`json.Marshal` uses for a Go map. -/
def insertByKey (p : String × String) : List (String × String) → List (String × String)
  | [] => [p]
  | q :: rest =>
      if compare p.1 q.1 ≠ Ordering.gt then p :: q :: rest else q :: insertByKey p rest

/-- Sorts key/value pairs by key (insertion sort). -/
def sortByKey (l : List (String × String)) : List (String × String) :=
  l.foldr insertByKey []

/-- `json.Marshal` on a `map[string]string`: keys sorted, each pair rendered
as `"key":"value"`, all inside braces. -/
def marshalStringMap (m : List (String × String)) : String :=
  "\x7b" ++
    sepConcat "," ((sortByKey m).map (fun kv => jsonQuote kv.1 ++ ":" ++ jsonQuote kv.2)) ++
  "\x7d"

/-- `json.Marshal` on a `[]string`: the elements in order, in brackets. -/
def marshalStringList (l : List String) : String :=
  "[" ++ sepConcat "," (l.map jsonQuote) ++ "]"

/-- Updates the value stored under `k` in an association list, the effect of
the Go map assignment `data[k] = v` on the maps used here. -/
def mapSet (m : List (String × String)) (k v : String) : List (String × String) :=
  m.map (fun kv => if kv.1 = k then (kv.1, v) else kv)

/-- `ItemHandler` from `webserver.go`: sets the cookie and the JSON
content-type, matches the path against `^/item/(\w+)$`; on a match it fills
`name` in the sample map, appends the long literal to the match slice, and
writes both `json.Marshal` results, each followed by a newline; otherwise it
answers with `http.Error` 404. -/
def ItemHandler (request : Request) : Response :=
  let r0 := SetMyCookie emptyResponse
  let r1 := { r0 with contentType := "application/json" }
  let data : List (String × String) := [("what", "item"), ("name", "")]
  let itemMatches := itemMatchList request.path
  if itemMatches.length > 0 then
    let data1 := mapSet data "name" (itemMatches.getD 1 "")
    let dataall := itemMatches ++ ["This is long JSON data for calculation for bytes."]
    { r1 with
      body := r1.body ++ marshalStringMap data1 ++ "\n" ++ marshalStringList dataall ++ "\n" }
  else
    httpError r1 "404 page not found" 404

/-- `HomeHandler` from `webserver.go`: sets the HTML content-type and reads
`home.html`; the read's outcome is passed in as `readResult` (`.ok contents`
or `.error description`).  On failure it answers with `http.Error` 500 and
then still appends `string(webpage)`, which is the empty string for the nil
slice; on success it writes the file contents verbatim. -/
def HomeHandler (_request : Request) (readResult : Except String String) : Response :=
  let r0 := { emptyResponse with contentType := "text/html; charset=utf-8" }
  match readResult with
  | Except.error e =>
      let r1 := httpError r0 ("home.html file error " ++ e) 500
      { r1 with body := r1.body ++ "" }
  | Except.ok webpage =>
      { r0 with body := r0.body ++ webpage }

/-- One hex digit's value, or `none` when the character is not a hex digit
(`ishex`/`unhex` from `net/url`). -/
def unhexVal (c : Char) : Option Nat :=
  if decide ('0' ≤ c) && decide (c ≤ '9') then some (c.toNat - '0'.toNat)
  else if decide ('a' ≤ c) && decide (c ≤ 'f') then some (c.toNat - 'a'.toNat + 10)
  else if decide ('A' ≤ c) && decide (c ≤ 'F') then some (c.toNat - 'A'.toNat + 10)
  else none

/-- `strconv.Quote` as used in `url.EscapeError.Error` on the short escape
fragments reported here: the string in double quotes (the fragments contain
no characters `strconv.Quote` would escape). -/
def goQuote (s : List Char) : String :=
  "\"" ++ String.mk s ++ "\""

/-- `url.QueryUnescape` on the characters of a query component: `+` becomes
a space, `%XY` with two hex digits decodes to that byte, and a `%` not
followed by two hex digits is an `url.EscapeError` whose message quotes the
offending fragment of up to three characters. -/
def queryUnescape : List Char → Except String (List Char)
  | [] => Except.ok []
  | '%' :: rest =>
      match rest with
      | a :: b :: rest2 =>
          match unhexVal a, unhexVal b with
          | some ha, some hb =>
              (queryUnescape rest2).map (fun cs => Char.ofNat (16 * ha + hb) :: cs)
          | _, _ => Except.error ("invalid URL escape " ++ goQuote ['%', a, b])
      | _ => Except.error ("invalid URL escape " ++ goQuote ('%' :: rest))
  | '+' :: rest => (queryUnescape rest).map (fun cs => ' ' :: cs)
  | c :: rest => (queryUnescape rest).map (fun cs => c :: cs)

/-- `m[key] = append(m[key], value)` on `url.Values`, kept as an association
list in first-insertion order (the printing order is sorted separately, as
`fmt` does for maps). -/
def valuesAdd (m : List (String × List String)) (k v : String) :
    List (String × List String) :=
  match m with
  | [] => [(k, [v])]
  | (k0, vs) :: rest =>
      if k0 == k then (k0, vs ++ [v]) :: rest else (k0, vs) :: valuesAdd rest k v

/-- One iteration of the loop in `url.parseQuery` (Go ≥ 1.17) on the piece
of the query between two `&` separators: a piece containing `;` is the
semicolon error, an empty piece is skipped, otherwise the piece is cut at
the first `=` and both halves are query-unescaped; the first error is kept
and a failing piece is dropped. -/
def parseQueryPiece (acc : List (String × List String) × Option String)
    (piece : String) : List (String × List String) × Option String :=
  let m := acc.1
  let err := acc.2
  if piece.data.contains ';' then
    (m, err.orElse (fun _ => some "invalid semicolon separator in query"))
  else if piece == "" then (m, err)
  else
    let k := piece.data.takeWhile (fun c => c ≠ '=')
    let v := (piece.data.dropWhile (fun c => c ≠ '=')).drop 1
    match queryUnescape k with
    | Except.error e => (m, err.orElse (fun _ => some e))
    | Except.ok k1 =>
        match queryUnescape v with
        | Except.error e => (m, err.orElse (fun _ => some e))
        | Except.ok v1 => (valuesAdd m (String.mk k1) (String.mk v1), err)

/-- Splits a character list at every occurrence of `sep`, keeping empty
pieces, as the `strings.Cut` loop of `url.parseQuery` walks the query. -/
def splitOnChar (sep : Char) : List Char → List (List Char)
  | [] => [[]]
  | c :: cs =>
      if c = sep then [] :: splitOnChar sep cs
      else
        match splitOnChar sep cs with
        | [] => [[c]]
        | p :: rest => (c :: p) :: rest

/-- `url.ParseQuery`: the query is split on `&` and each piece processed in
order; the parsed values of the valid pieces are returned together with the
first error, if any (`ParseQuery` returns both). -/
def parseQuery (query : String) : List (String × List String) × Option String :=
  ((splitOnChar '&' query.data).map String.mk).foldl parseQueryPiece ([], none)

/-- Insertion step for sorting `url.Values` entries by key, the order `fmt`
prints Go map keys in. -/
def insertValByKey (p : String × List String) :
    List (String × List String) → List (String × List String)
  | [] => [p]
  | q :: rest =>
      if compare p.1 q.1 ≠ Ordering.gt then p :: q :: rest else q :: insertValByKey p rest

/-- Sorts `url.Values` entries by key. -/
def sortValsByKey (l : List (String × List String)) : List (String × List String) :=
  l.foldr insertValByKey []

/-- `fmt`'s `%v` for `url.Values` (a `map[string][]string`): `map[...]` with
the keys sorted, each entry `key:[v1 v2 ...]`. -/
def fmtValues (m : List (String × List String)) : String :=
  "map[" ++
    sepConcat " "
      ((sortValsByKey m).map (fun kv => kv.1 ++ ":[" ++ sepConcat " " kv.2 ++ "]")) ++
  "]"

/-- `fmt`'s `%v` for the `[]*http.Cookie` returned by `request.Cookies()`:
the cookies in order, each printed `name=value` by `Cookie.String`, inside
brackets. -/
def fmtCookies (cs : List (String × String)) : String :=
  "[" ++ sepConcat " " (cs.map (fun c => c.1 ++ "=" ++ c.2)) ++ "]"

/-- The five-line diagnostic dump `GenericHandler` writes after the
`FooWebHandler says` banner line. -/
def genericDump (request : Request) (form : List (String × List String)) : String :=
  "FooWebHandler says ... \n" ++
  " request.Method     '" ++ request.method ++ "'\n" ++
  " request.RequestURI '" ++ request.requestURI ++ "'\n" ++
  " request.URL.Path   '" ++ request.path ++ "'\n" ++
  " request.Form       '" ++ fmtValues form ++ "'\n" ++
  " request.Cookies()  '" ++ fmtCookies request.cookies ++ "'\n"

/-- `GenericHandler` from `webserver.go`: sets the cookie and the plain-text
content-type, runs `request.ParseForm` (for these requests: `url.ParseQuery`
on the raw query, which also fills `request.Form` with the valid
parameters); on a parse error it calls `http.Error` 500 — without returning —
and in every case then writes the diagnostic dump. -/
def GenericHandler (request : Request) : Response :=
  let r0 := SetMyCookie emptyResponse
  let r1 := { r0 with contentType := "text/plain" }
  let parsed := parseQuery request.rawQuery
  let r2 :=
    match parsed.2 with
    | some e => httpError r1 ("error parsing url " ++ e) 500
    | none => r1
  { r2 with body := r2.body ++ genericDump request parsed.1 }

/-- The first line of a body: its characters up to the first newline. -/
def firstLine (s : String) : String :=
  String.mk (s.data.takeWhile (fun c => decide (c ≠ '\n')))

/-- The second line of a body: the first line of what follows the first
newline. -/
def secondLine (s : String) : String :=
  firstLine (String.mk ((s.data.dropWhile (fun c => decide (c ≠ '\n'))).drop 1))

/-- Whether `pat` occurs at the beginning of `l`. -/
def listBeginsWith : List Char → List Char → Bool
  | [], _ => true
  | _ :: _, [] => false
  | p :: ps, c :: cs => p == c && listBeginsWith ps cs

/-- Whether `pat` occurs contiguously somewhere in `l`. -/
def listHasSeg (pat : List Char) : List Char → Bool
  | [] => pat.isEmpty
  | c :: cs => listBeginsWith pat (c :: cs) || listHasSeg pat cs

/-- Whether `pat` occurs as a contiguous substring of `s`. -/
def strContainsSub (s pat : String) : Bool :=
  listHasSeg pat.data s.data

/-- A small JSON value grammar with its serialization, used to state that a
response line is the serialization of a given JSON document. -/
inductive Json where
  | str : String → Json
  | arr : List Json → Json
  | obj : List (String × Json) → Json

mutual

/-- Serialization of a `Json` value (strings escaped as Go's encoder does). -/
def Json.render : Json → String
  | Json.str s => jsonQuote s
  | Json.arr l => "[" ++ Json.renderList l ++ "]"
  | Json.obj l => "\x7b" ++ Json.renderObjList l ++ "\x7d"

/-- Comma-separated serialization of array elements. -/
def Json.renderList : List Json → String
  | [] => ""
  | [j] => Json.render j
  | j :: rest => Json.render j ++ "," ++ Json.renderList rest

/-- Comma-separated serialization of object members. -/
def Json.renderObjList : List (String × Json) → String
  | [] => ""
  | [kv] => jsonQuote kv.1 ++ ":" ++ Json.render kv.2
  | kv :: rest => jsonQuote kv.1 ++ ":" ++ Json.render kv.2 ++ "," ++ Json.renderObjList rest

end

/-- A character Go's JSON encoder copies through unescaped: not a quote,
backslash or HTML-escaped character, and not a control character. -/
def jsonPlainChar (c : Char) : Bool :=
  decide (c ≠ '"') && decide (c ≠ '\\') && decide (c ≠ '<') && decide (c ≠ '>') &&
  decide (c ≠ '&') && decide (¬ c < ' ')

/-- The first body line `ItemHandler` writes for the token `T`:
`json.Marshal` of the filled sample map (keys sorted: `name` before
`what`). -/
def itemObjLine (T : String) : String :=
  "\x7b\"name\":\"" ++ T ++ "\",\"what\":\"item\"\x7d"

/-- The second body line `ItemHandler` writes for the token `T`:
`json.Marshal` of the extended match slice. -/
def itemArrLine (T : String) : String :=
  "[\"/item/" ++ T ++ "\",\"" ++ T ++ "\",\"This is long JSON data for calculation for bytes.\"]"

/-- A concrete request for `/generic/anything?color=purple`. -/
def purpleReq : Request :=
  { method := "GET", requestURI := "/generic/anything?color=purple",
    path := "/generic/anything", rawQuery := "color=purple", cookies := [] }

/-- A concrete request whose query string `%zz` is malformed URL encoding,
so `request.ParseForm` fails on it. -/
def badQueryReq : Request :=
  { method := "GET", requestURI := "/generic/x?%zz",
    path := "/generic/x", rawQuery := "%zz", cookies := [] }

/-- A concrete request under `/item/` whose path contains a character
outside `\w` (the hyphen), so the pattern does not match. -/
def itemBadPathReq : Request :=
  { method := "GET", requestURI := "/item/bad-token",
    path := "/item/bad-token", rawQuery := "", cookies := [] }

/-- A concrete GET request for `/item/yellow` with no query and no
cookies. -/
def itemYellowGetReq : Request :=
  { method := "GET", requestURI := "/item/yellow",
    path := "/item/yellow", rawQuery := "", cookies := [] }

/-- A concrete POST request with the same URL path `/item/yellow` but a
different method, query string, request URI and client cookies. -/
def itemYellowPostReq : Request :=
  { method := "POST", requestURI := "/item/yellow?x=1",
    path := "/item/yellow", rawQuery := "x=1", cookies := [("a", "b")] }

/-! Helper lemmas about the embedding's list and string machinery. -/

theorem stripBegin_append (p r : List Char) : stripBegin p (p ++ r) = some r := by
  induction p with
  | nil => rfl
  | cons c cs ih => simp [stripBegin, ih]

theorem itemMatchList_token (T : String) (h1 : T.data ≠ [])
    (h2 : T.data.all isWordChar = true) :
    itemMatchList ("/item/" ++ T) = ["/item/" ++ T, T] := by
  unfold itemMatchList
  rw [String.data_append, stripBegin_append]
  simp [h1, h2]

theorem listBeginsWith_self (p r : List Char) : listBeginsWith p (p ++ r) = true := by
  induction p with
  | nil => rfl
  | cons c cs ih => simp [listBeginsWith, ih]

theorem listHasSeg_here (p r : List Char) (hp : p ≠ []) : listHasSeg p (p ++ r) = true := by
  cases p with
  | nil => exact absurd rfl hp
  | cons c cs =>
      simp only [listHasSeg, Bool.or_eq_true]
      exact Or.inl (by simpa using listBeginsWith_self (c :: cs) r)

theorem listHasSeg_extend (p x l : List Char) (h : listHasSeg p l = true) :
    listHasSeg p (x ++ l) = true := by
  induction x with
  | nil => exact h
  | cons c cs ih => simp [listHasSeg, ih]

theorem strContainsSub_split (s a b c : String) (hs : s = a ++ (b ++ c)) (hb : b.data ≠ []) :
    strContainsSub s b = true := by
  subst hs
  unfold strContainsSub
  rw [String.data_append, String.data_append]
  exact listHasSeg_extend _ _ _ (listHasSeg_here b.data c.data hb)

theorem takeWhile_no_nl (x y : List Char)
    (hx : x.all (fun c => decide (c ≠ '\n')) = true) :
    List.takeWhile (fun c => decide (c ≠ '\n')) (x ++ '\n' :: y) = x := by
  induction x with
  | nil => simp [List.takeWhile]
  | cons c cs ih =>
      simp only [List.all_cons, Bool.and_eq_true] at hx
      rw [List.cons_append,
        @List.takeWhile_cons_of_pos Char (fun c => decide (c ≠ '\n')) c (cs ++ '\n' :: y) hx.1,
        ih hx.2]

theorem dropWhile_no_nl (x y : List Char)
    (hx : x.all (fun c => decide (c ≠ '\n')) = true) :
    List.dropWhile (fun c => decide (c ≠ '\n')) (x ++ '\n' :: y) = '\n' :: y := by
  induction x with
  | nil => simp [List.dropWhile]
  | cons c cs ih =>
      simp only [List.all_cons, Bool.and_eq_true] at hx
      rw [List.cons_append,
        @List.dropWhile_cons_of_pos Char (fun c => decide (c ≠ '\n')) c (cs ++ '\n' :: y) hx.1,
        ih hx.2]

theorem firstLine_append (a b : String)
    (ha : a.data.all (fun c => decide (c ≠ '\n')) = true) :
    firstLine (a ++ "\n" ++ b) = a := by
  unfold firstLine
  have h1 : (a ++ "\n" ++ b).data = a.data ++ '\n' :: b.data := by
    simp [String.data_append]
  rw [h1, takeWhile_no_nl a.data b.data ha]

theorem secondLine_append (a b : String)
    (ha : a.data.all (fun c => decide (c ≠ '\n')) = true)
    (hb : b.data.all (fun c => decide (c ≠ '\n')) = true) :
    secondLine (a ++ "\n" ++ b ++ "\n") = b := by
  unfold secondLine firstLine
  have h1 : (a ++ "\n" ++ b ++ "\n").data = a.data ++ '\n' :: (b.data ++ '\n' :: []) := by
    simp [String.data_append]
  rw [h1, dropWhile_no_nl a.data _ ha]
  show String.mk (List.takeWhile (fun c => decide (c ≠ '\n')) (b.data ++ '\n' :: [])) = b
  rw [takeWhile_no_nl b.data [] hb]

theorem wordChar_ranges (c : Char) (h : isWordChar c = true) :
    ('0' ≤ c ∧ c ≤ '9') ∨ ('A' ≤ c ∧ c ≤ 'Z') ∨ ('a' ≤ c ∧ c ≤ 'z') ∨ c = '_' := by
  unfold isWordChar at h
  simp only [Bool.or_eq_true, Bool.and_eq_true, decide_eq_true_eq, beq_iff_eq] at h
  tauto

theorem wordChar_plain (c : Char) (h : isWordChar c = true) : jsonPlainChar c = true := by
  have hr := wordChar_ranges c h
  have hge : ' ' < c := by
    rcases hr with ⟨hl, _⟩ | ⟨hl, _⟩ | ⟨hl, _⟩ | rfl
    · exact lt_of_lt_of_le (by decide) hl
    · exact lt_of_lt_of_le (by decide) hl
    · exact lt_of_lt_of_le (by decide) hl
    · decide
  unfold jsonPlainChar
  simp only [Bool.and_eq_true, decide_eq_true_eq]
  refine ⟨⟨⟨⟨⟨?_, ?_⟩, ?_⟩, ?_⟩, ?_⟩, ?_⟩
  · rintro rfl; exact absurd h (by decide)
  · rintro rfl; exact absurd h (by decide)
  · rintro rfl; exact absurd h (by decide)
  · rintro rfl; exact absurd h (by decide)
  · rintro rfl; exact absurd h (by decide)
  · exact fun hlt => (lt_irrefl ' ') (lt_trans hge hlt)

theorem jsonEscapeChar_plain (c : Char) (h : jsonPlainChar c = true) :
    jsonEscapeChar c = String.singleton c := by
  unfold jsonPlainChar at h
  simp only [Bool.and_eq_true, decide_eq_true_eq] at h
  obtain ⟨⟨⟨⟨⟨h1, h2⟩, h3⟩, h4⟩, h5⟩, h6⟩ := h
  have h7 : c ≠ '\n' := fun e => h6 (by rw [e]; decide)
  have h8 : c ≠ '\r' := fun e => h6 (by rw [e]; decide)
  have h9 : c ≠ '\t' := fun e => h6 (by rw [e]; decide)
  unfold jsonEscapeChar
  rw [if_neg h1, if_neg h2, if_neg h7, if_neg h8, if_neg h9, if_neg h3, if_neg h4,
    if_neg h5, if_neg h6]

theorem strConcat_escape (l : List Char) (h : l.all jsonPlainChar = true) :
    strConcat (l.map jsonEscapeChar) = String.mk l := by
  induction l with
  | nil => rfl
  | cons c cs ih =>
      simp only [List.all_cons, Bool.and_eq_true] at h
      show jsonEscapeChar c ++ strConcat (cs.map jsonEscapeChar) = String.mk (c :: cs)
      rw [jsonEscapeChar_plain c h.1, ih h.2]
      rfl

theorem jsonQuote_plain (s : String) (h : s.data.all jsonPlainChar = true) :
    jsonQuote s = "\"" ++ s ++ "\"" := by
  unfold jsonQuote
  rw [strConcat_escape s.data h]

theorem all_plain_of_word (l : List Char) (h : l.all isWordChar = true) :
    l.all jsonPlainChar = true := by
  induction l with
  | nil => rfl
  | cons c cs ih =>
      simp only [List.all_cons, Bool.and_eq_true] at h ⊢
      exact ⟨wordChar_plain c h.1, ih h.2⟩

theorem all_no_nl_of_word (l : List Char) (h : l.all isWordChar = true) :
    l.all (fun c => decide (c ≠ '\n')) = true := by
  induction l with
  | nil => rfl
  | cons c cs ih =>
      simp only [List.all_cons, Bool.and_eq_true] at h ⊢
      refine ⟨?_, ih h.2⟩
      simp only [decide_eq_true_eq]
      exact fun e => by subst e; exact absurd h.1 (by decide)

theorem sortByKey_pair (T : String) :
    sortByKey [("what", "item"), ("name", T)] = [("name", T), ("what", "item")] := rfl

theorem marshal_obj_token (T : String) (h2 : T.data.all isWordChar = true) :
    marshalStringMap [("what", "item"), ("name", T)] = itemObjLine T := by
  have hq : jsonQuote T = "\"" ++ T ++ "\"" := jsonQuote_plain T (all_plain_of_word T.data h2)
  unfold marshalStringMap itemObjLine
  rw [sortByKey_pair]
  show "\x7b" ++ (jsonQuote "name" ++ ":" ++ jsonQuote T ++ "," ++
      (jsonQuote "what" ++ ":" ++ jsonQuote "item")) ++ "\x7d" =
    "\x7b\"name\":\"" ++ T ++ "\",\"what\":\"item\"\x7d"
  rw [show (jsonQuote "name" : String) = "\"name\"" from rfl,
    show (jsonQuote "what" : String) = "\"what\"" from rfl,
    show (jsonQuote "item" : String) = "\"item\"" from rfl, hq]
  apply String.ext
  simp [String.data_append]

theorem marshal_arr_token (T : String) (h2 : T.data.all isWordChar = true) :
    marshalStringList ["/item/" ++ T, T, "This is long JSON data for calculation for bytes."] =
      itemArrLine T := by
  have hplain : T.data.all jsonPlainChar = true := all_plain_of_word T.data h2
  have hq : jsonQuote T = "\"" ++ T ++ "\"" := jsonQuote_plain T hplain
  have hqp : jsonQuote ("/item/" ++ T) = "\"" ++ ("/item/" ++ T) ++ "\"" := by
    apply jsonQuote_plain
    rw [String.data_append, List.all_append, hplain]
    decide
  unfold marshalStringList itemArrLine
  show "[" ++ (jsonQuote ("/item/" ++ T) ++ "," ++
      (jsonQuote T ++ "," ++ jsonQuote "This is long JSON data for calculation for bytes.")) ++ "]" =
    "[\"/item/" ++ T ++ "\",\"" ++ T ++ "\",\"This is long JSON data for calculation for bytes.\"]"
  rw [hqp, hq, show jsonQuote "This is long JSON data for calculation for bytes." =
    "\"This is long JSON data for calculation for bytes.\"" from rfl]
  apply String.ext
  simp [String.data_append]

theorem render_obj_token (T : String) (h2 : T.data.all isWordChar = true) :
    Json.render (Json.obj [("name", Json.str T), ("what", Json.str "item")]) = itemObjLine T := by
  have hq : jsonQuote T = "\"" ++ T ++ "\"" := jsonQuote_plain T (all_plain_of_word T.data h2)
  unfold itemObjLine
  show "\x7b" ++ (jsonQuote "name" ++ ":" ++ jsonQuote T ++ "," ++
      (jsonQuote "what" ++ ":" ++ jsonQuote "item")) ++ "\x7d" =
    "\x7b\"name\":\"" ++ T ++ "\",\"what\":\"item\"\x7d"
  rw [show (jsonQuote "name" : String) = "\"name\"" from rfl,
    show (jsonQuote "what" : String) = "\"what\"" from rfl,
    show (jsonQuote "item" : String) = "\"item\"" from rfl, hq]
  apply String.ext
  simp [String.data_append]

theorem render_arr_token (T : String) (h2 : T.data.all isWordChar = true) :
    Json.render (Json.arr [Json.str ("/item/" ++ T), Json.str T,
      Json.str "This is long JSON data for calculation for bytes."]) = itemArrLine T := by
  have hplain : T.data.all jsonPlainChar = true := all_plain_of_word T.data h2
  have hq : jsonQuote T = "\"" ++ T ++ "\"" := jsonQuote_plain T hplain
  have hqp : jsonQuote ("/item/" ++ T) = "\"" ++ ("/item/" ++ T) ++ "\"" := by
    apply jsonQuote_plain
    rw [String.data_append, List.all_append, hplain]
    decide
  unfold itemArrLine
  show "[" ++ (jsonQuote ("/item/" ++ T) ++ "," ++
      (jsonQuote T ++ "," ++ jsonQuote "This is long JSON data for calculation for bytes.")) ++ "]" = _
  rw [hqp, hq, show jsonQuote "This is long JSON data for calculation for bytes." =
    "\"This is long JSON data for calculation for bytes.\"" from rfl]
  apply String.ext
  simp [String.data_append]

theorem objLine_no_nl (T : String) (h2 : T.data.all isWordChar = true) :
    (itemObjLine T).data.all (fun c => decide (c ≠ '\n')) = true := by
  unfold itemObjLine
  simp only [String.data_append, List.all_append, all_no_nl_of_word T.data h2]
  decide

theorem arrLine_no_nl (T : String) (h2 : T.data.all isWordChar = true) :
    (itemArrLine T).data.all (fun c => decide (c ≠ '\n')) = true := by
  unfold itemArrLine
  simp only [String.data_append, List.all_append, all_no_nl_of_word T.data h2]
  decide

theorem itemHandler_token_status (req : Request) (T : String) (h1 : T.data ≠ [])
    (h2 : T.data.all isWordChar = true) (hp : req.path = "/item/" ++ T) :
    (ItemHandler req).status = 200 := by
  simp only [ItemHandler]
  rw [hp, itemMatchList_token T h1 h2]
  rfl

theorem itemHandler_token_body (req : Request) (T : String) (h1 : T.data ≠ [])
    (h2 : T.data.all isWordChar = true) (hp : req.path = "/item/" ++ T) :
    (ItemHandler req).body = itemObjLine T ++ "\n" ++ itemArrLine T ++ "\n" := by
  simp only [ItemHandler]
  rw [hp, itemMatchList_token T h1 h2]
  show ("" : String) ++ marshalStringMap [("what", "item"), ("name", T)] ++ "\n" ++
      marshalStringList ["/item/" ++ T, T, "This is long JSON data for calculation for bytes."]
      ++ "\n" =
    itemObjLine T ++ "\n" ++ itemArrLine T ++ "\n"
  rw [marshal_obj_token T h2, marshal_arr_token T h2]
  simp

theorem generic_setCookies (req : Request) :
    (GenericHandler req).setCookies = [("testcookiename", "testcookievalue")] := by
  simp only [GenericHandler]
  cases hq : (parseQuery req.rawQuery).2 <;> rfl

theorem item_setCookies (req : Request) :
    (ItemHandler req).setCookies = [("testcookiename", "testcookievalue")] := by
  simp only [ItemHandler]
  split <;> rfl

/-- C2: for every token `T` of one or more word characters, a request whose
URL path is `/item/T` gets status 200, and the first line of the response
body is the serialization of the JSON object with `name` equal to `T` and
`what` equal to `item`. -/
theorem C2_item_token_ok (req : Request) (T : String) (h1 : T.data ≠ [])
    (h2 : T.data.all isWordChar = true) (hp : req.path = "/item/" ++ T) :
    (ItemHandler req).status = 200 ∧
    firstLine (ItemHandler req).body =
      Json.render (Json.obj [("name", Json.str T), ("what", Json.str "item")]) := by
  refine ⟨itemHandler_token_status req T h1 h2 hp, ?_⟩
  rw [itemHandler_token_body req T h1 h2 hp, render_obj_token T h2, String.append_assoc]
  exact firstLine_append (itemObjLine T) (itemArrLine T ++ "\n") (objLine_no_nl T h2)

/-- Witness for C2 at the concrete token `yellow`. -/
theorem C2_item_token_ok_witness :
    (ItemHandler itemYellowGetReq).status = 200 ∧
    firstLine (ItemHandler itemYellowGetReq).body =
      Json.render (Json.obj [("name", Json.str "yellow"), ("what", Json.str "item")]) :=
  C2_item_token_ok itemYellowGetReq "yellow" (by decide) (by decide) rfl

/-- C3 as stated fails on the code: for the path `/item/bad-token` (hyphen
outside `\w`) the status is 404 but the body is not the exact string
`404 page not found`, because `http.Error` writes the message followed by a
newline. -/
theorem C3_counterexample :
    (ItemHandler itemBadPathReq).status = 404 ∧
    (ItemHandler itemBadPathReq).body ≠ "404 page not found" := by
  decide

/-- C3 amended: for every request path under `/item/` that does not match
`^/item/(\w+)$`, the response has status 404 and body `404 page not found`
followed by a newline (the newline `http.Error`'s `fmt.Fprintln` adds). -/
theorem C3_item_no_match (req : Request)
    (_hunder : (stripBegin "/item/".data req.path.data).isSome = true)
    (hno : itemMatchList req.path = []) :
    (ItemHandler req).status = 404 ∧ (ItemHandler req).body = "404 page not found\n" := by
  simp only [ItemHandler]
  rw [hno]
  exact ⟨rfl, rfl⟩

/-- Witness for the amended C3 at the concrete path `/item/bad-token`. -/
theorem C3_item_no_match_witness :
    (ItemHandler itemBadPathReq).status = 404 ∧
    (ItemHandler itemBadPathReq).body = "404 page not found\n" :=
  C3_item_no_match itemBadPathReq (by decide) (by decide)

/-- C4: for every token `T` of word characters, the second line of the body
for path `/item/T` is the serialization of the JSON array holding the full
match `/item/T`, the token `T`, and the fixed long literal. -/
theorem C4_item_second_line (req : Request) (T : String) (h1 : T.data ≠ [])
    (h2 : T.data.all isWordChar = true) (hp : req.path = "/item/" ++ T) :
    secondLine (ItemHandler req).body =
      Json.render (Json.arr [Json.str ("/item/" ++ T), Json.str T,
        Json.str "This is long JSON data for calculation for bytes."]) := by
  rw [itemHandler_token_body req T h1 h2 hp, render_arr_token T h2]
  exact secondLine_append (itemObjLine T) (itemArrLine T)
    (objLine_no_nl T h2) (arrLine_no_nl T h2)

/-- Witness for C4 at the concrete token `yellow`. -/
theorem C4_item_second_line_witness :
    secondLine (ItemHandler itemYellowGetReq).body =
      Json.render (Json.arr [Json.str ("/item/" ++ "yellow"), Json.str "yellow",
        Json.str "This is long JSON data for calculation for bytes."]) :=
  C4_item_second_line itemYellowGetReq "yellow" (by decide) (by decide) rfl

/-- C6: every response of the Generic Handler and every response of the
Item Handler (matching or not) carries the Set-Cookie pair
`testcookiename=testcookievalue`. -/
theorem C6_cookie_always (req : Request) :
    ("testcookiename", "testcookievalue") ∈ (GenericHandler req).setCookies ∧
    ("testcookiename", "testcookievalue") ∈ (ItemHandler req).setCookies := by
  rw [generic_setCookies req, item_setCookies req]
  exact ⟨List.mem_singleton.2 rfl, List.mem_singleton.2 rfl⟩

/-- C7: the cookie setter appends exactly the fixed Set-Cookie pair and
leaves the status, content type and body of the response unchanged; as a
total function it never fails. -/
theorem C7_setMyCookie (r : Response) :
    (SetMyCookie r).setCookies = r.setCookies ++ [("testcookiename", "testcookievalue")] ∧
    (SetMyCookie r).body = r.body ∧
    (SetMyCookie r).status = r.status ∧
    (SetMyCookie r).contentType = r.contentType :=
  ⟨rfl, rfl, rfl, rfl⟩

/-- C8: when reading `home.html` succeeds, the Home Handler answers 200
with content type `text/html; charset=utf-8` and a body identical to the
file contents. -/
theorem C8_home_ok (req : Request) (contents : String) :
    (HomeHandler req (Except.ok contents)).status = 200 ∧
    (HomeHandler req (Except.ok contents)).contentType = "text/html; charset=utf-8" ∧
    (HomeHandler req (Except.ok contents)).body = contents := by
  refine ⟨rfl, rfl, ?_⟩
  show ("" : String) ++ contents = contents
  simp

/-- C9: when reading `home.html` fails, the Home Handler answers 500 and
the body is exactly `home.html file error ` followed by the failure
description and the message newline; nothing else is written. -/
theorem C9_home_error (req : Request) (e : String) :
    (HomeHandler req (Except.error e)).status = 500 ∧
    (HomeHandler req (Except.error e)).body = "home.html file error " ++ e ++ "\n" := by
  refine ⟨rfl, ?_⟩
  show (("" : String) ++ ("home.html file error " ++ e) ++ "\n") ++ "" =
    "home.html file error " ++ e ++ "\n"
  apply String.ext
  simp [String.data_append]

/-- C10: the Item Handler reads nothing of the request but its URL path:
two requests with equal paths get equal status, body, Set-Cookie headers
and content type. -/
theorem C10_item_path_det (r1 r2 : Request) (h : r1.path = r2.path) :
    (ItemHandler r1).status = (ItemHandler r2).status ∧
    (ItemHandler r1).body = (ItemHandler r2).body ∧
    (ItemHandler r1).setCookies = (ItemHandler r2).setCookies ∧
    (ItemHandler r1).contentType = (ItemHandler r2).contentType := by
  have he : ItemHandler r1 = ItemHandler r2 := by
    simp only [ItemHandler]
    rw [h]
  exact ⟨congrArg Response.status he, congrArg Response.body he,
    congrArg Response.setCookies he, congrArg Response.contentType he⟩

/-- Witness for C10: a GET with no query and no cookies against a POST with
a query and a client cookie, both for path `/item/yellow`. -/
theorem C10_item_path_det_witness :
    (ItemHandler itemYellowGetReq).status = (ItemHandler itemYellowPostReq).status ∧
    (ItemHandler itemYellowGetReq).body = (ItemHandler itemYellowPostReq).body ∧
    (ItemHandler itemYellowGetReq).setCookies = (ItemHandler itemYellowPostReq).setCookies ∧
    (ItemHandler itemYellowGetReq).contentType = (ItemHandler itemYellowPostReq).contentType :=
  C10_item_path_det itemYellowGetReq itemYellowPostReq rfl

theorem genericHandler_ok_body (req : Request) (f : List (String × List String))
    (h : parseQuery req.rawQuery = (f, none)) :
    (GenericHandler req).body = genericDump req f := by
  simp only [GenericHandler]
  rw [h]
  show ("" : String) ++ genericDump req f = genericDump req f
  simp

/-- C5: whenever form parsing succeeds, the Generic Handler's body is the
banner line followed by exactly the method, raw request URI, URL path,
stringified form and stringified client cookies, in that order; and the
body contains the stringified `request.Form` line as a substring. -/
theorem C5_generic_dump (req : Request) (f : List (String × List String))
    (h : parseQuery req.rawQuery = (f, none)) :
    (GenericHandler req).body =
      "FooWebHandler says ... \n" ++
      " request.Method     '" ++ req.method ++ "'\n" ++
      " request.RequestURI '" ++ req.requestURI ++ "'\n" ++
      " request.URL.Path   '" ++ req.path ++ "'\n" ++
      " request.Form       '" ++ fmtValues f ++ "'\n" ++
      " request.Cookies()  '" ++ fmtCookies req.cookies ++ "'\n" ∧
    strContainsSub (GenericHandler req).body
      ("request.Form       '" ++ fmtValues f ++ "'") = true := by
  have hb := genericHandler_ok_body req f h
  refine ⟨?_, ?_⟩
  · rw [hb]
    rfl
  · refine strContainsSub_split (GenericHandler req).body
      ("FooWebHandler says ... \n" ++ " request.Method     '" ++ req.method ++ "'\n" ++
        " request.RequestURI '" ++ req.requestURI ++ "'\n" ++
        " request.URL.Path   '" ++ req.path ++ "'\n ")
      ("request.Form       '" ++ fmtValues f ++ "'")
      ("\n request.Cookies()  '" ++ fmtCookies req.cookies ++ "'\n") ?_ ?_
    · rw [hb]
      apply String.ext
      simp [genericDump, String.data_append]
    · simp [String.data_append]

/-- Witness for C5 at the concrete request `/generic/anything?color=purple`:
the body contains the literal line text for the parsed form. -/
theorem C5_generic_dump_witness :
    strContainsSub (GenericHandler purpleReq).body
      "request.Form       'map[color:[purple]]'" = true :=
  (C5_generic_dump purpleReq [("color", ["purple"])] rfl).2

/-- C1 concerns the only error path of the Generic Handler.  On a request
whose query is malformed the handler does answer 500 with the parse error
message, but because the code does not return after `http.Error`, the full
diagnostic dump is still appended to the body, contrary to the claim that
the dump is not written. -/
theorem C1_parse_error_dump_still_written :
    (GenericHandler badQueryReq).status = 500 ∧
    strContainsSub (GenericHandler badQueryReq).body
      "error parsing url invalid URL escape \"%zz\"" = true ∧
    strContainsSub (GenericHandler badQueryReq).body "FooWebHandler says ... " = true ∧
    strContainsSub (GenericHandler badQueryReq).body
      " request.URL.Path   '/generic/x'" = true := by
  decide
